import Mathlib

/-!
Shallow embedding of the transaction-processor repository.

The embedding follows src/store.rs (data model and in-memory store),
src/processor.rs (the five event handlers) and src/runner.rs (the replay
driver loop).  Monetary amounts, `f64` in the source, are modelled as exact
rationals, matching the spec's "signed decimal amount" data model; client
and transaction ids (`u16` / `u32` in the source) are modelled as naturals,
since the code only ever compares them for equality and uses them as map
keys.  The store's hash maps are modelled as association lists with
replace-on-insert semantics.
-/

/-- Event kinds, from the `EventType` enum in src/runner.rs. -/
inductive EventType where
  | deposit
  | withdrawal
  | dispute
  | resolve
  | chargeback
deriving DecidableEq, Repr

/-- Input event record, from the `Event` struct in src/runner.rs. -/
structure Event where
  event_type : EventType
  client : Nat
  tx : Nat
  amount : Option Rat
deriving DecidableEq, Repr

/-- Transaction record, from the `Transaction` struct in src/store.rs. -/
structure Transaction where
  id : Nat
  client : Nat
  amount : Rat
  disputed : Bool
deriving DecidableEq, Repr

/-- Client record, from the `Client` struct in src/store.rs. -/
structure Client where
  id : Nat
  available : Rat
  held : Rat
  locked : Bool
deriving DecidableEq, Repr

/-- Rust `Client::default()`: all-zero record (derived `Default`). -/
def Client.default : Client := ⟨0, 0, 0, false⟩

/-- Processor rejection taxonomy, from the `ProcessorError` enum in
src/processor.rs (the `StoreError` wrapper is omitted: `StoreError` is an
empty enum, so the in-memory backend never produces it). -/
inductive ProcessorError where
  | TransactionExists
  | NoAmount
  | ClientLocked
  | WithdrawalAboveBalance
  | ClientMissing
  | ClientTransactionMismatch
  | TransactionMissing
  | TransactionDisputed
  | WithdrawalNotDisputable
  | TransactionNotDisputed
deriving DecidableEq, Repr

/-- Rust nightly `Option::is_some_with` (as enabled in src/lib.rs):
true iff the option is `some` and the predicate holds on its content. -/
def Option.is_some_with {α : Type} : Option α → (α → Bool) → Bool
  | none, _ => false
  | some a, p => p a

/-- Deposit handler, `DepositProcessor::process_event` in
src/processor.rs lines 47-81. -/
def DepositProcessor.process_event (maybe_tx : Option Transaction)
    (maybe_client : Option Client) (event : Event) :
    Except ProcessorError (Client × Transaction) :=
  -- PRECONDITION: transaction must be unique
  if maybe_tx.isSome then .error .TransactionExists
  -- PRECONDITION: client must not be locked
  else if maybe_client.is_some_with (fun client => client.locked) then
    .error .ClientLocked
  else
    -- PRECONDITION: event must have an amount
    match event.amount with
    | none => .error .NoAmount
    | some amount =>
      -- POSTCONDITION: client saved with new value (or inserted if absent)
      let client := maybe_client.getD Client.default
      let client := { client with
        id := event.client -- in case it was a new client
        available := client.available + amount }
      -- POSTCONDITION: new transaction created
      let tx : Transaction :=
        { id := event.tx, client := event.client
          amount := amount, disputed := false }
      .ok (client, tx)

/-- Withdrawal handler, `WithdrawalProcessor::process_event` in
src/processor.rs lines 83-124. -/
def WithdrawalProcessor.process_event (maybe_tx : Option Transaction)
    (maybe_client : Option Client) (event : Event) :
    Except ProcessorError (Client × Transaction) :=
  -- PRECONDITION: transaction must be unique
  if maybe_tx.isSome then .error .TransactionExists
  else
    -- PRECONDITION: event must have an amount
    match event.amount with
    | none => .error .NoAmount
    | some amount =>
      -- PRECONDITION: client must exist
      match maybe_client with
      | none => .error .ClientMissing
      | some client =>
        -- PRECONDITION: client must not be locked
        if client.locked then .error .ClientLocked
        -- PRECONDITION: withdrawal must not exceed client balance
        else if amount > client.available then .error .WithdrawalAboveBalance
        else
          -- POSTCONDITION: client available balance reduced
          let client := { client with available := client.available - amount }
          -- POSTCONDITION: new transaction created, amount negated
          let tx : Transaction :=
            { id := event.tx, client := event.client
              amount := amount * (-1), disputed := false }
          .ok (client, tx)

/-- Dispute handler, `DisputeProcessor::process_event` in
src/processor.rs lines 126-163. -/
def DisputeProcessor.process_event (maybe_tx : Option Transaction)
    (maybe_client : Option Client) (_event : Event) :
    Except ProcessorError (Client × Transaction) :=
  -- PRECONDITION: transaction must exist
  match maybe_tx with
  | none => .error .TransactionMissing
  | some tx =>
    -- PRECONDITION: transaction must not be under dispute
    if tx.disputed then .error .TransactionDisputed
    -- PRECONDITION: transaction must not have been a withdrawal
    else if tx.amount < 0 then .error .WithdrawalNotDisputable
    else
      -- PRECONDITION: client must exist
      match maybe_client with
      | none => .error .ClientMissing
      | some client =>
        -- PRECONDITION: client must match tx
        if tx.client ≠ client.id then .error .ClientTransactionMismatch
        else
          -- POSTCONDITION: client funds are held; tx marked disputed
          .ok ({ client with
                   available := client.available - tx.amount
                   held := client.held + tx.amount },
               { tx with disputed := true })

/-- Resolve handler, `ResolveProcessor::process_event` in
src/processor.rs lines 165-198. -/
def ResolveProcessor.process_event (maybe_tx : Option Transaction)
    (maybe_client : Option Client) (_event : Event) :
    Except ProcessorError (Client × Transaction) :=
  -- PRECONDITION: transaction must exist
  match maybe_tx with
  | none => .error .TransactionMissing
  | some tx =>
    -- PRECONDITION: transaction must be under dispute
    if !tx.disputed then .error .TransactionNotDisputed
    else
      -- PRECONDITION: client must exist
      match maybe_client with
      | none => .error .ClientMissing
      | some client =>
        -- PRECONDITION: client must match tx
        if tx.client ≠ client.id then .error .ClientTransactionMismatch
        else
          -- POSTCONDITION: held funds released; tx no longer disputed
          .ok ({ client with
                   available := client.available + tx.amount
                   held := client.held - tx.amount },
               { tx with disputed := false })

/-- Chargeback handler, `ChargebackProcessor::process_event` in
src/processor.rs lines 200-234. -/
def ChargebackProcessor.process_event (maybe_tx : Option Transaction)
    (maybe_client : Option Client) (_event : Event) :
    Except ProcessorError (Client × Transaction) :=
  -- PRECONDITION: transaction must exist
  match maybe_tx with
  | none => .error .TransactionMissing
  | some tx =>
    -- PRECONDITION: transaction must be under dispute
    if !tx.disputed then .error .TransactionNotDisputed
    else
      -- PRECONDITION: client must exist
      match maybe_client with
      | none => .error .ClientMissing
      | some client =>
        -- PRECONDITION: client must match tx
        if tx.client ≠ client.id then .error .ClientTransactionMismatch
        else
          -- POSTCONDITION: held funds removed; account frozen; tx undisputed
          .ok ({ client with
                   held := client.held - tx.amount
                   locked := true },
               { tx with disputed := false })

/-- Driver dispatch, the exhaustive `match event.event_type` in
src/runner.rs lines 73-80: every event kind maps to exactly one handler. -/
def processEvent (maybe_tx : Option Transaction) (maybe_client : Option Client)
    (event : Event) : Except ProcessorError (Client × Transaction) :=
  match event.event_type with
  | .deposit => DepositProcessor.process_event maybe_tx maybe_client event
  | .withdrawal => WithdrawalProcessor.process_event maybe_tx maybe_client event
  | .dispute => DisputeProcessor.process_event maybe_tx maybe_client event
  | .resolve => ResolveProcessor.process_event maybe_tx maybe_client event
  | .chargeback => ChargebackProcessor.process_event maybe_tx maybe_client event

/-- Association-list lookup: the first binding for the key, modelling
`HashMap::get` in src/store.rs. -/
def getA {β : Type} (k : Nat) : List (Nat × β) → Option β
  | [] => none
  | (k', v) :: rest => if k' = k then some v else getA k rest

/-- Association-list upsert: replaces the existing binding for the key
wholesale, or appends a new one, modelling `HashMap::insert` in
src/store.rs. -/
def setA {β : Type} (k : Nat) (v : β) : List (Nat × β) → List (Nat × β)
  | [] => [(k, v)]
  | (k', v') :: rest =>
    if k' = k then (k, v) :: rest else (k', v') :: setA k v rest

/-- Ledger store, the `InMemoryStore` struct in src/store.rs: a client map
and a transaction map. -/
structure Store where
  clients : List (Nat × Client)
  transactions : List (Nat × Transaction)
deriving DecidableEq, Repr

/-- Store method `get_client` of src/store.rs. -/
def Store.get_client (s : Store) (id : Nat) : Option Client :=
  getA id s.clients

/-- Store method `set_client` of src/store.rs: upsert keyed by the
client's own id. -/
def Store.set_client (s : Store) (client : Client) : Store :=
  { s with clients := setA client.id client s.clients }

/-- Store method `get_transaction` of src/store.rs. -/
def Store.get_transaction (s : Store) (id : Nat) : Option Transaction :=
  getA id s.transactions

/-- Store method `set_transaction` of src/store.rs: upsert keyed by the
transaction's own id. -/
def Store.set_transaction (s : Store) (transaction : Transaction) : Store :=
  { s with transactions := setA transaction.id transaction s.transactions }

/-- The empty store, Rust `InMemoryStore::default()`. -/
def initialStore : Store := ⟨[], []⟩

/-- One iteration of the driver loop in `CsvSingleProcessRunner::run`,
src/runner.rs lines 69-91: fetch snapshots, dispatch, and on success write
back transaction then client; on rejection, only log (no store writes). -/
def step (s : Store) (event : Event) : Store :=
  let maybe_tx := s.get_transaction event.tx
  let maybe_client := s.get_client event.client
  match processEvent maybe_tx maybe_client event with
  | .error _ => s
  | .ok (client, transaction) =>
    (s.set_transaction transaction).set_client client

/-- Sequential replay of an event stream, the `for` loop of
`CsvSingleProcessRunner::run`. -/
def run (s : Store) (events : List Event) : Store :=
  events.foldl step s

/-- Key coherence of the store: every stored record sits under its own id,
which holds by construction since both set methods key by the record id. -/
def StoreInv (s : Store) : Prop :=
  (∀ k c, getA k s.clients = some c → c.id = k) ∧
  (∀ k t, getA k s.transactions = some t → t.id = k)

/-- Inversion of a successful deposit: the shape of the preconditions and
result forced by the source of DepositProcessor. -/
theorem dep_ok {mt : Option Transaction} {mc : Option Client} {ev : Event}
    {cl : Client} {tx : Transaction}
    (h : DepositProcessor.process_event mt mc ev = .ok (cl, tx)) :
    mt = none ∧ mc.is_some_with (fun c => c.locked) = false ∧
    ∃ a, ev.amount = some a ∧
      cl = { (mc.getD Client.default) with
               id := ev.client
               available := (mc.getD Client.default).available + a } ∧
      tx = ⟨ev.tx, ev.client, a, false⟩ := by
  cases mt with
  | some t => simp [DepositProcessor.process_event] at h
  | none =>
    cases hl : mc.is_some_with (fun c => c.locked) with
    | true => simp [DepositProcessor.process_event, hl] at h
    | false =>
      cases hev : ev.amount with
      | none => simp [DepositProcessor.process_event, hl, hev] at h
      | some a =>
        simp [DepositProcessor.process_event, hl, hev] at h
        exact ⟨rfl, rfl, a, rfl, h.1.symm, h.2.symm⟩

/-- Inversion of a successful withdrawal. -/
theorem wdl_ok {mt : Option Transaction} {mc : Option Client} {ev : Event}
    {cl : Client} {tx : Transaction}
    (h : WithdrawalProcessor.process_event mt mc ev = .ok (cl, tx)) :
    mt = none ∧
    ∃ a c0, ev.amount = some a ∧ mc = some c0 ∧ c0.locked = false ∧
      ¬ a > c0.available ∧
      cl = { c0 with available := c0.available - a } ∧
      tx = ⟨ev.tx, ev.client, a * (-1), false⟩ := by
  cases mt with
  | some t => simp [WithdrawalProcessor.process_event] at h
  | none =>
    cases hev : ev.amount with
    | none => simp [WithdrawalProcessor.process_event, hev] at h
    | some a =>
      cases mc with
      | none => simp [WithdrawalProcessor.process_event, hev] at h
      | some c0 =>
        cases hl : c0.locked with
        | true => simp [WithdrawalProcessor.process_event, hev, hl] at h
        | false =>
          by_cases hb : a > c0.available
          · simp [WithdrawalProcessor.process_event, hev, hl, hb] at h
          · simp [WithdrawalProcessor.process_event, hev, hl, hb] at h
            refine ⟨rfl, a, c0, rfl, rfl, hl, hb, ?_, ?_⟩
            · rw [hl]; exact h.1.symm
            · rw [← h.2]; simp

/-- Inversion of a successful dispute. -/
theorem disp_ok {mt : Option Transaction} {mc : Option Client} {ev : Event}
    {cl : Client} {tx : Transaction}
    (h : DisputeProcessor.process_event mt mc ev = .ok (cl, tx)) :
    ∃ t0 c0, mt = some t0 ∧ t0.disputed = false ∧ ¬ t0.amount < 0 ∧
      mc = some c0 ∧ t0.client = c0.id ∧
      cl = { c0 with
               available := c0.available - t0.amount
               held := c0.held + t0.amount } ∧
      tx = { t0 with disputed := true } := by
  cases mt with
  | none => simp [DisputeProcessor.process_event] at h
  | some t0 =>
    cases hd : t0.disputed with
    | true => simp [DisputeProcessor.process_event, hd] at h
    | false =>
      by_cases ha : t0.amount < 0
      · simp [DisputeProcessor.process_event, hd, ha] at h
      · cases mc with
        | none => simp [DisputeProcessor.process_event, hd, ha] at h
        | some c0 =>
          by_cases hm : t0.client = c0.id
          · simp [DisputeProcessor.process_event, hd, ha, hm] at h
            refine ⟨t0, c0, rfl, hd, ha, rfl, hm, h.1.symm, ?_⟩
            rw [hm]; exact h.2.symm
          · simp [DisputeProcessor.process_event, hd, ha, hm] at h

/-- Inversion of a successful resolve. -/
theorem res_ok {mt : Option Transaction} {mc : Option Client} {ev : Event}
    {cl : Client} {tx : Transaction}
    (h : ResolveProcessor.process_event mt mc ev = .ok (cl, tx)) :
    ∃ t0 c0, mt = some t0 ∧ t0.disputed = true ∧
      mc = some c0 ∧ t0.client = c0.id ∧
      cl = { c0 with
               available := c0.available + t0.amount
               held := c0.held - t0.amount } ∧
      tx = { t0 with disputed := false } := by
  cases mt with
  | none => simp [ResolveProcessor.process_event] at h
  | some t0 =>
    cases hd : t0.disputed with
    | false => simp [ResolveProcessor.process_event, hd] at h
    | true =>
      cases mc with
      | none => simp [ResolveProcessor.process_event, hd] at h
      | some c0 =>
        by_cases hm : t0.client = c0.id
        · simp [ResolveProcessor.process_event, hd, hm] at h
          refine ⟨t0, c0, rfl, hd, rfl, hm, h.1.symm, ?_⟩
          rw [hm]; exact h.2.symm
        · simp [ResolveProcessor.process_event, hd, hm] at h

/-- Inversion of a successful chargeback. -/
theorem cgb_ok {mt : Option Transaction} {mc : Option Client} {ev : Event}
    {cl : Client} {tx : Transaction}
    (h : ChargebackProcessor.process_event mt mc ev = .ok (cl, tx)) :
    ∃ t0 c0, mt = some t0 ∧ t0.disputed = true ∧
      mc = some c0 ∧ t0.client = c0.id ∧
      cl = { c0 with
               held := c0.held - t0.amount
               locked := true } ∧
      tx = { t0 with disputed := false } := by
  cases mt with
  | none => simp [ChargebackProcessor.process_event] at h
  | some t0 =>
    cases hd : t0.disputed with
    | false => simp [ChargebackProcessor.process_event, hd] at h
    | true =>
      cases mc with
      | none => simp [ChargebackProcessor.process_event, hd] at h
      | some c0 =>
        by_cases hm : t0.client = c0.id
        · simp [ChargebackProcessor.process_event, hd, hm] at h
          refine ⟨t0, c0, rfl, hd, rfl, hm, h.1.symm, ?_⟩
          rw [hm]; exact h.2.symm
        · simp [ChargebackProcessor.process_event, hd, hm] at h

/-- Lookup after upsert: the upserted key maps to the new value, every
other key is untouched. -/
theorem getA_setA {β : Type} (k k' : Nat) (v : β) (l : List (Nat × β)) :
    getA k (setA k' v l) = if k' = k then some v else getA k l := by
  induction l with
  | nil => simp [getA, setA]
  | cons p rest ih =>
    obtain ⟨k0, v0⟩ := p
    by_cases h0 : k0 = k'
    · subst h0
      by_cases h1 : k0 = k
      · simp [setA, getA, h1]
      · simp [setA, getA, h1]
    · by_cases h1 : k0 = k
      · have h2 : ¬ k' = k := fun hk => h0 (h1.trans hk.symm)
        have h3 : ¬ k = k' := fun hk => h2 hk.symm
        simp [setA, getA, h0, h1, h2, h3]
      · simp [setA, getA, h0, h1, ih]

/-- The driver makes no store writes when the handler rejects
(src/runner.rs line 82). -/
theorem step_of_error {s : Store} {ev : Event} {e : ProcessorError}
    (h : processEvent (s.get_transaction ev.tx) (s.get_client ev.client) ev
           = .error e) :
    step s ev = s := by
  simp [step, h]

/-- On success the driver writes back transaction then client
(src/runner.rs lines 84-85). -/
theorem step_of_ok {s : Store} {ev : Event} {cl : Client} {tx : Transaction}
    (h : processEvent (s.get_transaction ev.tx) (s.get_client ev.client) ev
           = .ok (cl, tx)) :
    step s ev = (s.set_transaction tx).set_client cl := by
  simp [step, h]

/-- The empty store is key-coherent. -/
theorem storeInv_initial : StoreInv initialStore := by
  constructor <;> intro k x h <;> simp [initialStore, getA] at h

/-- Key coherence is preserved by every driver step. -/
theorem storeInv_step {s : Store} (hs : StoreInv s) (ev : Event) :
    StoreInv (step s ev) := by
  rcases hres : processEvent (s.get_transaction ev.tx) (s.get_client ev.client) ev
    with e | ⟨cl, tx⟩
  · rw [step_of_error hres]; exact hs
  · rw [step_of_ok hres]
    constructor
    · intro k c h
      simp only [Store.set_client, Store.set_transaction, getA_setA] at h
      split_ifs at h with h1
      · cases h; exact h1
      · exact hs.1 k c h
    · intro k t h
      simp only [Store.set_client, Store.set_transaction, getA_setA] at h
      split_ifs at h with h1
      · cases h; exact h1
      · exact hs.2 k t h

/-- Key coherence is preserved by replay. -/
theorem storeInv_run {s : Store} (hs : StoreInv s) (evs : List Event) :
    StoreInv (run s evs) := by
  induction evs generalizing s with
  | nil => exact hs
  | cons ev evs ih => exact ih (storeInv_step hs ev)

/-- Client lookup after a successful write-back. -/
theorem get_client_after_ok (s : Store) (cl : Client) (tx : Transaction)
    (cid : Nat) :
    ((s.set_transaction tx).set_client cl).get_client cid
      = if cl.id = cid then some cl else s.get_client cid := by
  simp [Store.set_client, Store.set_transaction, Store.get_client, getA_setA]

/-- Transaction lookup after a successful write-back. -/
theorem get_transaction_after_ok (s : Store) (cl : Client) (tx : Transaction)
    (t : Nat) :
    ((s.set_transaction tx).set_client cl).get_transaction t
      = if tx.id = t then some tx else s.get_transaction t := by
  simp [Store.set_client, Store.set_transaction, Store.get_transaction, getA_setA]

/-- A locked client stays present and locked across one driver step. -/
theorem locked_step {s : Store} (hs : StoreInv s) {cid : Nat} {c : Client}
    (h : s.get_client cid = some c) (hl : c.locked = true) (ev : Event) :
    ∃ c', (step s ev).get_client cid = some c' ∧ c'.locked = true := by
  rcases hres : processEvent (s.get_transaction ev.tx) (s.get_client ev.client) ev
    with e | ⟨cl, tx⟩
  · rw [step_of_error hres]; exact ⟨c, h, hl⟩
  · rw [step_of_ok hres]
    rw [get_client_after_ok]
    by_cases hid : cl.id = cid
    · refine ⟨cl, by simp [hid], ?_⟩
      cases hev : ev.event_type with
      | deposit =>
        simp only [processEvent, hev] at hres
        obtain ⟨hmt, hlock, a, ha, hcl, htx⟩ := dep_ok hres
        subst hcl
        simp only at hid
        rw [hid] at hlock
        rw [h] at hlock
        simp [Option.is_some_with, hl] at hlock
      | withdrawal =>
        simp only [processEvent, hev] at hres
        obtain ⟨hmt, a, c0, ha, hmc, hlock0, hb, hcl, htx⟩ := wdl_ok hres
        subst hcl
        simp only at hid
        have hcid : ev.client = cid := (hs.1 ev.client c0 hmc).symm.trans hid
        rw [hcid, h] at hmc
        cases hmc
        rw [hlock0] at hl
        cases hl
      | dispute =>
        simp only [processEvent, hev] at hres
        obtain ⟨t0, c0, hmt, hd, ha, hmc, hm, hcl, htx⟩ := disp_ok hres
        subst hcl
        simp only at hid ⊢
        have hcid : ev.client = cid := (hs.1 ev.client c0 hmc).symm.trans hid
        rw [hcid, h] at hmc
        cases hmc
        exact hl
      | resolve =>
        simp only [processEvent, hev] at hres
        obtain ⟨t0, c0, hmt, hd, hmc, hm, hcl, htx⟩ := res_ok hres
        subst hcl
        simp only at hid ⊢
        have hcid : ev.client = cid := (hs.1 ev.client c0 hmc).symm.trans hid
        rw [hcid, h] at hmc
        cases hmc
        exact hl
      | chargeback =>
        simp only [processEvent, hev] at hres
        obtain ⟨t0, c0, hmt, hd, hmc, hm, hcl, htx⟩ := cgb_ok hres
        subst hcl
        rfl
    · exact ⟨c, by simp [hid, h], hl⟩

/-- A recorded transaction id stays recorded across one driver step
(the store has no deletion). -/
theorem tx_isSome_step {s : Store} {t : Nat}
    (h : (s.get_transaction t).isSome = true) (ev : Event) :
    ((step s ev).get_transaction t).isSome = true := by
  rcases hres : processEvent (s.get_transaction ev.tx) (s.get_client ev.client) ev
    with e | ⟨cl, tx⟩
  · rw [step_of_error hres]; exact h
  · rw [step_of_ok hres, get_transaction_after_ok]
    by_cases hid : tx.id = t <;> simp [hid, h]

/-- The id, client and amount of a stored transaction survive one driver
step unchanged. -/
theorem tx_fields_step {s : Store} (hs : StoreInv s) {t : Nat} {x : Transaction}
    (h : s.get_transaction t = some x) (ev : Event) :
    ∃ y, (step s ev).get_transaction t = some y ∧
      y.id = x.id ∧ y.client = x.client ∧ y.amount = x.amount := by
  rcases hres : processEvent (s.get_transaction ev.tx) (s.get_client ev.client) ev
    with e | ⟨cl, tx⟩
  · rw [step_of_error hres]; exact ⟨x, h, rfl, rfl, rfl⟩
  · rw [step_of_ok hres, get_transaction_after_ok]
    by_cases hid : tx.id = t
    · refine ⟨tx, by simp [hid], ?_⟩
      cases hev : ev.event_type with
      | deposit =>
        simp only [processEvent, hev] at hres
        obtain ⟨hmt, hlock, a, ha, hcl, htx⟩ := dep_ok hres
        subst htx
        simp only at hid
        rw [hid, h] at hmt
        cases hmt
      | withdrawal =>
        simp only [processEvent, hev] at hres
        obtain ⟨hmt, a, c0, ha, hmc, hlock0, hb, hcl, htx⟩ := wdl_ok hres
        subst htx
        simp only at hid
        rw [hid, h] at hmt
        cases hmt
      | dispute =>
        simp only [processEvent, hev] at hres
        obtain ⟨t0, c0, hmt, hd, ha, hmc, hm, hcl, htx⟩ := disp_ok hres
        subst htx
        simp only at hid ⊢
        have htid : ev.tx = t := (hs.2 ev.tx t0 hmt).symm.trans hid
        rw [htid, h] at hmt
        cases hmt
        exact ⟨rfl, rfl, rfl⟩
      | resolve =>
        simp only [processEvent, hev] at hres
        obtain ⟨t0, c0, hmt, hd, hmc, hm, hcl, htx⟩ := res_ok hres
        subst htx
        simp only at hid ⊢
        have htid : ev.tx = t := (hs.2 ev.tx t0 hmt).symm.trans hid
        rw [htid, h] at hmt
        cases hmt
        exact ⟨rfl, rfl, rfl⟩
      | chargeback =>
        simp only [processEvent, hev] at hres
        obtain ⟨t0, c0, hmt, hd, hmc, hm, hcl, htx⟩ := cgb_ok hres
        subst htx
        simp only at hid ⊢
        have htid : ev.tx = t := (hs.2 ev.tx t0 hmt).symm.trans hid
        rw [htid, h] at hmt
        cases hmt
        exact ⟨rfl, rfl, rfl⟩
    · exact ⟨x, by simp [hid, h], rfl, rfl, rfl⟩

/-- A locked client stays present and locked across any replay. -/
theorem locked_run {s : Store} (hs : StoreInv s) {cid : Nat} {c : Client}
    (h : s.get_client cid = some c) (hl : c.locked = true) (evs : List Event) :
    ∃ c', (run s evs).get_client cid = some c' ∧ c'.locked = true := by
  induction evs generalizing s c with
  | nil => exact ⟨c, h, hl⟩
  | cons ev evs ih =>
    obtain ⟨c1, h1, hl1⟩ := locked_step hs h hl ev
    exact ih (storeInv_step hs ev) h1 hl1

/-- A recorded transaction id stays recorded across any replay. -/
theorem tx_isSome_run {s : Store} {t : Nat}
    (h : (s.get_transaction t).isSome = true) (evs : List Event) :
    ((run s evs).get_transaction t).isSome = true := by
  induction evs generalizing s with
  | nil => exact h
  | cons ev evs ih => exact ih (tx_isSome_step h ev)

/-- The id, client and amount of a stored transaction survive any replay
unchanged. -/
theorem tx_fields_run {s : Store} (hs : StoreInv s) {t : Nat} {x : Transaction}
    (h : s.get_transaction t = some x) (evs : List Event) :
    ∃ y, (run s evs).get_transaction t = some y ∧
      y.id = x.id ∧ y.client = x.client ∧ y.amount = x.amount := by
  induction evs generalizing s x with
  | nil => exact ⟨x, h, rfl, rfl, rfl⟩
  | cons ev evs ih =>
    obtain ⟨y, h1, hy1, hy2, hy3⟩ := tx_fields_step hs h ev
    obtain ⟨z, h2, hz1, hz2, hz3⟩ := ih (storeInv_step hs ev) h1
    exact ⟨z, h2, hz1.trans hy1, hz2.trans hy2, hz3.trans hy3⟩

/-- C5: for every event whose handler returns a rejection, the driver
performs no store writes: the store after processing the event is identical
to the store before it, and replay continues with the next record. -/
theorem c5_rejected_event_makes_no_store_writes (s : Store) (ev : Event)
    (e : ProcessorError)
    (h : processEvent (s.get_transaction ev.tx) (s.get_client ev.client) ev
           = .error e) :
    step s ev = s ∧ ∀ evs, run s (ev :: evs) = run s evs := by
  refine ⟨step_of_error h, fun evs => ?_⟩
  simp only [run, List.foldl, step_of_error h]

/-- Witness for C5: a withdrawal on the empty store is rejected with
client-missing and leaves the store unchanged. -/
theorem c5_witness :
    processEvent (initialStore.get_transaction 1) (initialStore.get_client 1)
        ⟨.withdrawal, 1, 1, some 5⟩ = .error .ClientMissing ∧
    step initialStore ⟨.withdrawal, 1, 1, some 5⟩ = initialStore := by
  have h : processEvent (initialStore.get_transaction 1)
      (initialStore.get_client 1) ⟨.withdrawal, 1, 1, some 5⟩
      = .error .ClientMissing := by
    simp [processEvent, WithdrawalProcessor.process_event, initialStore,
      Store.get_transaction, Store.get_client, getA]
  exact ⟨h, (c5_rejected_event_makes_no_store_writes initialStore
    ⟨.withdrawal, 1, 1, some 5⟩ .ClientMissing h).1⟩

/-- C2: the dispute, resolve and chargeback handlers never examine the
client's locked flag: for every locked client, an event of these three
kinds whose other preconditions hold succeeds and applies the handler's
balance mutations to the locked client. -/
theorem c2_dispute_resolve_chargeback_ignore_locked
    (tx : Transaction) (c : Client) (ev : Event) (_hl : c.locked = true) :
    (tx.disputed = false → ¬ tx.amount < 0 → tx.client = c.id →
      DisputeProcessor.process_event (some tx) (some c) ev =
        .ok ({ c with available := c.available - tx.amount,
                      held := c.held + tx.amount },
             { tx with disputed := true })) ∧
    (tx.disputed = true → tx.client = c.id →
      ResolveProcessor.process_event (some tx) (some c) ev =
        .ok ({ c with available := c.available + tx.amount,
                      held := c.held - tx.amount },
             { tx with disputed := false })) ∧
    (tx.disputed = true → tx.client = c.id →
      ChargebackProcessor.process_event (some tx) (some c) ev =
        .ok ({ c with held := c.held - tx.amount, locked := true },
             { tx with disputed := false })) := by
  refine ⟨fun hd ha hm => ?_, fun hd hm => ?_, fun hd hm => ?_⟩
  · simp [DisputeProcessor.process_event, hd, ha, hm]
  · simp [ResolveProcessor.process_event, hd, hm]
  · simp [ChargebackProcessor.process_event, hd, hm]

/-- Witness for C2: a dispute, a resolve and a chargeback each succeed on a
locked client. -/
theorem c2_witness :
    ((⟨1, 0, 0, true⟩ : Client).locked = true) ∧
    DisputeProcessor.process_event (some ⟨1, 1, 5, false⟩)
      (some ⟨1, 0, 0, true⟩) ⟨.dispute, 1, 1, none⟩ =
      .ok (⟨1, -5, 5, true⟩, ⟨1, 1, 5, true⟩) ∧
    ResolveProcessor.process_event (some ⟨1, 1, 5, true⟩)
      (some ⟨1, 0, 0, true⟩) ⟨.resolve, 1, 1, none⟩ =
      .ok (⟨1, 5, -5, true⟩, ⟨1, 1, 5, false⟩) ∧
    ChargebackProcessor.process_event (some ⟨1, 1, 5, true⟩)
      (some ⟨1, 0, 0, true⟩) ⟨.chargeback, 1, 1, none⟩ =
      .ok (⟨1, 0, -5, true⟩, ⟨1, 1, 5, false⟩) := by
  have h := c2_dispute_resolve_chargeback_ignore_locked
    ⟨1, 1, 5, false⟩ ⟨1, 0, 0, true⟩ ⟨.dispute, 1, 1, none⟩ rfl
  have h' := c2_dispute_resolve_chargeback_ignore_locked
    ⟨1, 1, 5, true⟩ ⟨1, 0, 0, true⟩ ⟨.resolve, 1, 1, none⟩ rfl
  have h'' := c2_dispute_resolve_chargeback_ignore_locked
    ⟨1, 1, 5, true⟩ ⟨1, 0, 0, true⟩ ⟨.chargeback, 1, 1, none⟩ rfl
  refine ⟨rfl, ?_, ?_, ?_⟩
  · have := h.1 rfl (by norm_num) rfl
    rw [this]
    norm_num [Client.mk.injEq, Transaction.mk.injEq]
  · have := h'.2.1 rfl rfl
    rw [this]
    norm_num [Client.mk.injEq, Transaction.mk.injEq]
  · have := h''.2.2 rfl rfl
    rw [this]
    norm_num [Client.mk.injEq, Transaction.mk.injEq]

/-- C10: resolve is the inverse of dispute: whenever a dispute succeeds on a
client and transaction, applying resolve to the dispute's result returns
the client's available and held balances and the transaction's disputed
flag to exactly their values before the dispute. -/
theorem c10_resolve_inverts_dispute
    (tx : Transaction) (c : Client) (ev ev' : Event)
    (c1 : Client) (t1 : Transaction)
    (h : DisputeProcessor.process_event (some tx) (some c) ev = .ok (c1, t1)) :
    ∃ c2 t2,
      ResolveProcessor.process_event (some t1) (some c1) ev' = .ok (c2, t2) ∧
      c2.available = c.available ∧ c2.held = c.held ∧
      t2.disputed = tx.disputed := by
  obtain ⟨t0, c0, hmt, hd, ha, hmc, hm, hcl, htx⟩ := disp_ok h
  cases hmt
  cases hmc
  subst hcl
  subst htx
  have hres : ResolveProcessor.process_event
      (some { tx with disputed := true })
      (some { c with available := c.available - tx.amount,
                     held := c.held + tx.amount }) ev'
      = .ok ({ c with available := c.available - tx.amount + tx.amount,
                      held := c.held + tx.amount - tx.amount },
             { tx with disputed := false }) := by
    simp [ResolveProcessor.process_event, hm]
  exact ⟨_, _, hres, by simp, by simp, by simp [hd]⟩

/-- Witness for C10: disputing then resolving a 5-unit deposit transaction
restores available 5, held 0 and an undisputed transaction. -/
theorem c10_witness :
    DisputeProcessor.process_event (some ⟨1, 1, 5, false⟩)
        (some ⟨1, 5, 0, false⟩) ⟨.dispute, 1, 1, none⟩
      = .ok (⟨1, 0, 5, false⟩, ⟨1, 1, 5, true⟩) ∧
    (∃ c2 t2, ResolveProcessor.process_event (some ⟨1, 1, 5, true⟩)
        (some ⟨1, 0, 5, false⟩) ⟨.resolve, 1, 1, none⟩ = .ok (c2, t2) ∧
      c2.available = 5 ∧ c2.held = 0 ∧ t2.disputed = false) := by
  have h : DisputeProcessor.process_event (some ⟨1, 1, 5, false⟩)
      (some ⟨1, 5, 0, false⟩) ⟨.dispute, 1, 1, none⟩
      = .ok (⟨1, 0, 5, false⟩, ⟨1, 1, 5, true⟩) := by
    simp [DisputeProcessor.process_event]
  exact ⟨h, c10_resolve_inverts_dispute ⟨1, 1, 5, false⟩ ⟨1, 5, 0, false⟩
    ⟨.dispute, 1, 1, none⟩ ⟨.resolve, 1, 1, none⟩ ⟨1, 0, 5, false⟩
    ⟨1, 1, 5, true⟩ h⟩

/-- Counterexample to C1 as stated: replaying deposit, dispute, chargeback
on transaction 1 leaves client 1 at available 0, held 0, locked, with
transaction 1 undisputed; a fourth event, a dispute of the same transaction
id, then succeeds again and changes both the client and the transaction:
the transaction is not inert after the chargeback. -/
theorem c1_counterexample :
    (run initialStore [⟨.deposit, 1, 1, some 5⟩, ⟨.dispute, 1, 1, none⟩,
        ⟨.chargeback, 1, 1, none⟩]).get_client 1 = some ⟨1, 0, 0, true⟩ ∧
    (run initialStore [⟨.deposit, 1, 1, some 5⟩, ⟨.dispute, 1, 1, none⟩,
        ⟨.chargeback, 1, 1, none⟩]).get_transaction 1 = some ⟨1, 1, 5, false⟩ ∧
    (run initialStore [⟨.deposit, 1, 1, some 5⟩, ⟨.dispute, 1, 1, none⟩,
        ⟨.chargeback, 1, 1, none⟩, ⟨.dispute, 1, 1, none⟩]).get_client 1
      = some ⟨1, -5, 5, true⟩ ∧
    (run initialStore [⟨.deposit, 1, 1, some 5⟩, ⟨.dispute, 1, 1, none⟩,
        ⟨.chargeback, 1, 1, none⟩, ⟨.dispute, 1, 1, none⟩]).get_transaction 1
      = some ⟨1, 1, 5, true⟩ := by
  refine ⟨?_, ?_, ?_, ?_⟩ <;>
    simp [run, step, processEvent, DepositProcessor.process_event,
      DisputeProcessor.process_event, ChargebackProcessor.process_event,
      Store.get_client, Store.get_transaction, Store.set_client,
      Store.set_transaction, getA, setA, initialStore, Option.is_some_with,
      Client.default]

/-- C1 amended: after a chargeback on a transaction succeeds, the
transaction's disputed flag is cleared, so every subsequent resolve or
chargeback referencing its id is rejected with transaction-not-disputed
and changes no state; a subsequent dispute of the transaction is, however,
not blocked by the chargeback (see the counterexample). -/
theorem c1_amended_chargeback_blocks_resolve_chargeback
    (tx : Transaction) (mc : Option Client) (ev : Event)
    (c1 : Client) (t1 : Transaction)
    (h : ChargebackProcessor.process_event (some tx) mc ev = .ok (c1, t1)) :
    t1.disputed = false ∧
    (∀ mc' ev', ResolveProcessor.process_event (some t1) mc' ev'
        = .error .TransactionNotDisputed) ∧
    (∀ mc' ev', ChargebackProcessor.process_event (some t1) mc' ev'
        = .error .TransactionNotDisputed) := by
  obtain ⟨t0, c0, hmt, hd, hmc, hm, hcl, htx⟩ := cgb_ok h
  cases hmt
  subst htx
  refine ⟨rfl, fun mc' ev' => ?_, fun mc' ev' => ?_⟩
  · simp [ResolveProcessor.process_event]
  · simp [ChargebackProcessor.process_event]

/-- Witness for C1 amended: a concrete chargeback, after which resolve and
chargeback of the returned transaction are rejected. -/
theorem c1_amended_witness :
    ChargebackProcessor.process_event (some ⟨1, 1, 5, true⟩)
        (some ⟨1, 0, 5, false⟩) ⟨.chargeback, 1, 1, none⟩
      = .ok (⟨1, 0, 0, true⟩, ⟨1, 1, 5, false⟩) ∧
    (⟨1, 1, 5, false⟩ : Transaction).disputed = false ∧
    ResolveProcessor.process_event (some ⟨1, 1, 5, false⟩)
        (some ⟨1, 0, 0, true⟩) ⟨.resolve, 1, 1, none⟩
      = .error .TransactionNotDisputed ∧
    ChargebackProcessor.process_event (some ⟨1, 1, 5, false⟩)
        (some ⟨1, 0, 0, true⟩) ⟨.chargeback, 1, 1, none⟩
      = .error .TransactionNotDisputed := by
  have h : ChargebackProcessor.process_event (some ⟨1, 1, 5, true⟩)
      (some ⟨1, 0, 5, false⟩) ⟨.chargeback, 1, 1, none⟩
      = .ok (⟨1, 0, 0, true⟩, ⟨1, 1, 5, false⟩) := by
    simp [ChargebackProcessor.process_event]
  obtain ⟨h1, h2, h3⟩ := c1_amended_chargeback_blocks_resolve_chargeback
    ⟨1, 1, 5, true⟩ (some ⟨1, 0, 5, false⟩) ⟨.chargeback, 1, 1, none⟩
    ⟨1, 0, 0, true⟩ ⟨1, 1, 5, false⟩ h
  exact ⟨h, h1, h2 (some ⟨1, 0, 0, true⟩) ⟨.resolve, 1, 1, none⟩,
    h3 (some ⟨1, 0, 0, true⟩) ⟨.chargeback, 1, 1, none⟩⟩

/-- Counterexample to C3 as stated: a withdrawal event with amount 0
creates a transaction whose stored amount is 0, not negative, and a dispute
referencing it is not rejected with withdrawal-not-disputable: it succeeds. -/
theorem c3_counterexample :
    WithdrawalProcessor.process_event none (some ⟨1, 0, 0, false⟩)
        ⟨.withdrawal, 1, 2, some 0⟩
      = .ok (⟨1, 0, 0, false⟩, ⟨2, 1, 0, false⟩) ∧
    DisputeProcessor.process_event (some ⟨2, 1, 0, false⟩)
        (some ⟨1, 0, 0, false⟩) ⟨.dispute, 1, 2, none⟩
      = .ok (⟨1, 0, 0, false⟩, ⟨2, 1, 0, true⟩) := by
  constructor <;>
    simp [WithdrawalProcessor.process_event, DisputeProcessor.process_event]

/-- Rejection characterization of dispute for a not-yet-disputed
transaction: the withdrawal-not-disputable error is returned exactly when
the stored amount is strictly negative. -/
theorem dispute_wnd_iff (tx : Transaction) (mc : Option Client) (ev : Event)
    (hd : tx.disputed = false) :
    DisputeProcessor.process_event (some tx) mc ev
      = .error .WithdrawalNotDisputable ↔ tx.amount < 0 := by
  by_cases ha : tx.amount < 0
  · simp [DisputeProcessor.process_event, hd, ha]
  · simp only [DisputeProcessor.process_event, hd, ha]
    simp only [if_false, Bool.false_eq_true]
    cases mc with
    | none => simp [ha]
    | some c =>
      by_cases hm : tx.client = c.id <;> simp [hm, ha]

/-- C3 amended: dispute rejects with withdrawal-not-disputable exactly when
the referenced, not-yet-disputed transaction has a strictly negative stored
amount; and every transaction created by a withdrawal event with a
strictly positive amount has a strictly negative stored amount, so a
dispute referencing it is rejected with withdrawal-not-disputable. -/
theorem c3_amended_negative_amount_not_disputable :
    (∀ (tx : Transaction) (mc : Option Client) (ev : Event),
      tx.disputed = false →
      (DisputeProcessor.process_event (some tx) mc ev
          = .error .WithdrawalNotDisputable ↔ tx.amount < 0)) ∧
    (∀ (c : Client) (ev : Event) (a : Rat) (cl : Client) (t : Transaction),
      ev.amount = some a → 0 < a →
      WithdrawalProcessor.process_event none (some c) ev = .ok (cl, t) →
      t.amount < 0 ∧
      ∀ (mc2 : Option Client) (ev2 : Event),
        DisputeProcessor.process_event (some t) mc2 ev2
          = .error .WithdrawalNotDisputable) := by
  constructor
  · exact fun tx mc ev hd => dispute_wnd_iff tx mc ev hd
  · intro c ev a cl t ha hpos h
    obtain ⟨hmt, a', c0, ha', hmc, hlock, hb, hcl, htx⟩ := wdl_ok h
    rw [ha] at ha'
    cases ha'
    cases hmc
    subst htx
    have hneg : a * (-1) < 0 := by nlinarith
    refine ⟨by simpa using hneg, fun mc2 ev2 => ?_⟩
    exact (dispute_wnd_iff ⟨ev.tx, ev.client, a * (-1), false⟩ mc2 ev2 rfl).mpr hneg

/-- Witness for C3 amended: a withdrawal of 3 stores amount -3 and its
dispute is rejected with withdrawal-not-disputable. -/
theorem c3_amended_witness :
    ((⟨1, 1, -3, false⟩ : Transaction).disputed = false ∧
      (DisputeProcessor.process_event (some ⟨1, 1, -3, false⟩)
          (some ⟨1, 5, 0, false⟩) ⟨.dispute, 1, 1, none⟩
        = .error .WithdrawalNotDisputable ↔ (-3 : Rat) < 0)) ∧
    WithdrawalProcessor.process_event none (some ⟨1, 5, 0, false⟩)
        ⟨.withdrawal, 1, 7, some 3⟩ = .ok (⟨1, 2, 0, false⟩, ⟨7, 1, -3, false⟩) ∧
    (⟨7, 1, -3, false⟩ : Transaction).amount < 0 ∧
    DisputeProcessor.process_event (some ⟨7, 1, -3, false⟩)
        (some ⟨1, 2, 0, false⟩) ⟨.dispute, 1, 7, none⟩
      = .error .WithdrawalNotDisputable := by
  have hw : WithdrawalProcessor.process_event none (some ⟨1, 5, 0, false⟩)
      ⟨.withdrawal, 1, 7, some 3⟩
      = .ok (⟨1, 2, 0, false⟩, ⟨7, 1, -3, false⟩) := by
    simp [WithdrawalProcessor.process_event]
    norm_num [Client.mk.injEq, Transaction.mk.injEq]
  obtain ⟨hneg, hrej⟩ := c3_amended_negative_amount_not_disputable.2
    ⟨1, 5, 0, false⟩ ⟨.withdrawal, 1, 7, some 3⟩ 3 ⟨1, 2, 0, false⟩
    ⟨7, 1, -3, false⟩ rfl (by norm_num) hw
  exact ⟨⟨rfl, c3_amended_negative_amount_not_disputable.1 ⟨1, 1, -3, false⟩
      (some ⟨1, 5, 0, false⟩) ⟨.dispute, 1, 1, none⟩ rfl⟩,
    hw, hneg, hrej (some ⟨1, 2, 0, false⟩) ⟨.dispute, 1, 7, none⟩⟩

/-- Counterexample to C4 as stated: a successful deposit for an existing
client whose stored id differs from the event's client field returns the
client with its id overwritten by the event's value, not unchanged: the id
is copied from the event in every case, not only on creation. -/
theorem c4_counterexample :
    DepositProcessor.process_event none (some ⟨2, 0, 0, false⟩)
        ⟨.deposit, 3, 1, some 5⟩ = .ok (⟨3, 5, 0, false⟩, ⟨1, 3, 5, false⟩) ∧
    (⟨3, 5, 0, false⟩ : Client).id ≠ (⟨2, 0, 0, false⟩ : Client).id := by
  constructor
  · simp [DepositProcessor.process_event, Option.is_some_with]
  · simp

/-- C4 amended: on a successful deposit for an existing client, held and
locked are unchanged and available increases by the event's amount; the id
is copied from the event unconditionally (which coincides with the stored
id whenever the driver looked the client up under the event's client id),
not only when the client is created because it was absent. -/
theorem c4_amended_deposit_frame (c : Client) (ev : Event) (a : Rat)
    (cl : Client) (t : Transaction) (ha : ev.amount = some a)
    (h : DepositProcessor.process_event none (some c) ev = .ok (cl, t)) :
    cl = { c with id := ev.client, available := c.available + a } := by
  obtain ⟨hmt, hlock, a', ha', hcl, htx⟩ := dep_ok h
  rw [ha] at ha'
  cases ha'
  subst hcl
  rfl

/-- Witness for C4 amended: a deposit of 3 on an existing client with
available 2 yields available 5 with held and locked untouched. -/
theorem c4_amended_witness :
    ((⟨.deposit, 1, 7, some 3⟩ : Event).amount = some 3) ∧
    DepositProcessor.process_event none (some ⟨1, 2, 4, false⟩)
        ⟨.deposit, 1, 7, some 3⟩ = .ok (⟨1, 2 + 3, 4, false⟩, ⟨7, 1, 3, false⟩) ∧
    (⟨1, 2 + 3, 4, false⟩ : Client)
      = { (⟨1, 2, 4, false⟩ : Client) with id := 1, available := 2 + 3 } := by
  have h : DepositProcessor.process_event none (some ⟨1, 2, 4, false⟩)
      ⟨.deposit, 1, 7, some 3⟩ = .ok (⟨1, 2 + 3, 4, false⟩, ⟨7, 1, 3, false⟩) := by
    simp [DepositProcessor.process_event, Option.is_some_with]
  exact ⟨rfl, h, c4_amended_deposit_frame ⟨1, 2, 4, false⟩ ⟨.deposit, 1, 7, some 3⟩
    3 ⟨1, 2 + 3, 4, false⟩ ⟨7, 1, 3, false⟩ rfl h⟩

/-- C6: on inputs violating several preconditions at once, the single error
returned is the one for the first violated precondition in the handler's
fixed order (deposit: tx-exists, client-locked, missing-amount;
withdrawal: tx-exists, missing-amount, client-missing, client-locked,
exceeds-balance; dispute: tx-missing, already-disputed,
withdrawal-not-disputable, client-missing, mismatch; resolve and
chargeback: tx-missing, not-disputed, client-missing, mismatch); later
checks are not evaluated, so every later input component is arbitrary here. -/
theorem c6_first_violated_precondition_wins :
    (∀ (t : Transaction) (mc : Option Client) (ev : Event),
      DepositProcessor.process_event (some t) mc ev
        = .error .TransactionExists) ∧
    (∀ (c : Client) (ev : Event), c.locked = true →
      DepositProcessor.process_event none (some c) ev
        = .error .ClientLocked) ∧
    (∀ (mc : Option Client) (ev : Event),
      mc.is_some_with (fun c => c.locked) = false → ev.amount = none →
      DepositProcessor.process_event none mc ev = .error .NoAmount) ∧
    (∀ (t : Transaction) (mc : Option Client) (ev : Event),
      WithdrawalProcessor.process_event (some t) mc ev
        = .error .TransactionExists) ∧
    (∀ (mc : Option Client) (ev : Event), ev.amount = none →
      WithdrawalProcessor.process_event none mc ev = .error .NoAmount) ∧
    (∀ (ev : Event) (a : Rat), ev.amount = some a →
      WithdrawalProcessor.process_event none none ev
        = .error .ClientMissing) ∧
    (∀ (c : Client) (ev : Event) (a : Rat), ev.amount = some a →
      c.locked = true →
      WithdrawalProcessor.process_event none (some c) ev
        = .error .ClientLocked) ∧
    (∀ (c : Client) (ev : Event) (a : Rat), ev.amount = some a →
      c.locked = false → a > c.available →
      WithdrawalProcessor.process_event none (some c) ev
        = .error .WithdrawalAboveBalance) ∧
    (∀ (mc : Option Client) (ev : Event),
      DisputeProcessor.process_event none mc ev
        = .error .TransactionMissing) ∧
    (∀ (t : Transaction) (mc : Option Client) (ev : Event),
      t.disputed = true →
      DisputeProcessor.process_event (some t) mc ev
        = .error .TransactionDisputed) ∧
    (∀ (t : Transaction) (mc : Option Client) (ev : Event),
      t.disputed = false → t.amount < 0 →
      DisputeProcessor.process_event (some t) mc ev
        = .error .WithdrawalNotDisputable) ∧
    (∀ (t : Transaction) (ev : Event),
      t.disputed = false → ¬ t.amount < 0 →
      DisputeProcessor.process_event (some t) none ev
        = .error .ClientMissing) ∧
    (∀ (t : Transaction) (c : Client) (ev : Event),
      t.disputed = false → ¬ t.amount < 0 → t.client ≠ c.id →
      DisputeProcessor.process_event (some t) (some c) ev
        = .error .ClientTransactionMismatch) ∧
    (∀ (mc : Option Client) (ev : Event),
      ResolveProcessor.process_event none mc ev
        = .error .TransactionMissing) ∧
    (∀ (t : Transaction) (mc : Option Client) (ev : Event),
      t.disputed = false →
      ResolveProcessor.process_event (some t) mc ev
        = .error .TransactionNotDisputed) ∧
    (∀ (t : Transaction) (ev : Event), t.disputed = true →
      ResolveProcessor.process_event (some t) none ev
        = .error .ClientMissing) ∧
    (∀ (t : Transaction) (c : Client) (ev : Event),
      t.disputed = true → t.client ≠ c.id →
      ResolveProcessor.process_event (some t) (some c) ev
        = .error .ClientTransactionMismatch) ∧
    (∀ (mc : Option Client) (ev : Event),
      ChargebackProcessor.process_event none mc ev
        = .error .TransactionMissing) ∧
    (∀ (t : Transaction) (mc : Option Client) (ev : Event),
      t.disputed = false →
      ChargebackProcessor.process_event (some t) mc ev
        = .error .TransactionNotDisputed) ∧
    (∀ (t : Transaction) (ev : Event), t.disputed = true →
      ChargebackProcessor.process_event (some t) none ev
        = .error .ClientMissing) ∧
    (∀ (t : Transaction) (c : Client) (ev : Event),
      t.disputed = true → t.client ≠ c.id →
      ChargebackProcessor.process_event (some t) (some c) ev
        = .error .ClientTransactionMismatch) := by
  refine ⟨?_, ?_, ?_, ?_, ?_, ?_, ?_, ?_, ?_, ?_, ?_, ?_, ?_, ?_, ?_, ?_,
    ?_, ?_, ?_, ?_, ?_⟩
  · intro t mc ev; simp [DepositProcessor.process_event]
  · intro c ev hl; simp [DepositProcessor.process_event, Option.is_some_with, hl]
  · intro mc ev hl ha; simp [DepositProcessor.process_event, hl, ha]
  · intro t mc ev; simp [WithdrawalProcessor.process_event]
  · intro mc ev ha; simp [WithdrawalProcessor.process_event, ha]
  · intro ev a ha; simp [WithdrawalProcessor.process_event, ha]
  · intro c ev a ha hl; simp [WithdrawalProcessor.process_event, ha, hl]
  · intro c ev a ha hl hb; simp [WithdrawalProcessor.process_event, ha, hl, hb]
  · intro mc ev; simp [DisputeProcessor.process_event]
  · intro t mc ev hd; simp [DisputeProcessor.process_event, hd]
  · intro t mc ev hd ha; simp [DisputeProcessor.process_event, hd, ha]
  · intro t ev hd ha; simp [DisputeProcessor.process_event, hd, ha]
  · intro t c ev hd ha hm; simp [DisputeProcessor.process_event, hd, ha, hm]
  · intro mc ev; simp [ResolveProcessor.process_event]
  · intro t mc ev hd; simp [ResolveProcessor.process_event, hd]
  · intro t ev hd; simp [ResolveProcessor.process_event, hd]
  · intro t c ev hd hm; simp [ResolveProcessor.process_event, hd, hm]
  · intro mc ev; simp [ChargebackProcessor.process_event]
  · intro t mc ev hd; simp [ChargebackProcessor.process_event, hd]
  · intro t ev hd; simp [ChargebackProcessor.process_event, hd]
  · intro t c ev hd hm; simp [ChargebackProcessor.process_event, hd, hm]

/-- Witness for C6: one concrete multi-violation input per conjunct, each
returning the first-listed error. -/
theorem c6_witness :
    DepositProcessor.process_event (some ⟨9, 9, 9, true⟩)
        (some ⟨5, 0, 0, true⟩) ⟨.deposit, 5, 9, none⟩
      = .error .TransactionExists ∧
    DepositProcessor.process_event none (some ⟨5, 0, 0, true⟩)
        ⟨.deposit, 5, 9, none⟩ = .error .ClientLocked ∧
    DepositProcessor.process_event none none ⟨.deposit, 5, 9, none⟩
      = .error .NoAmount ∧
    WithdrawalProcessor.process_event (some ⟨9, 9, 9, true⟩) none
        ⟨.withdrawal, 5, 9, none⟩ = .error .TransactionExists ∧
    WithdrawalProcessor.process_event none none ⟨.withdrawal, 5, 9, none⟩
      = .error .NoAmount ∧
    WithdrawalProcessor.process_event none none ⟨.withdrawal, 5, 9, some 3⟩
      = .error .ClientMissing ∧
    WithdrawalProcessor.process_event none (some ⟨5, 0, 0, true⟩)
        ⟨.withdrawal, 5, 9, some 3⟩ = .error .ClientLocked ∧
    WithdrawalProcessor.process_event none (some ⟨5, 1, 0, false⟩)
        ⟨.withdrawal, 5, 9, some 3⟩ = .error .WithdrawalAboveBalance ∧
    DisputeProcessor.process_event none none ⟨.dispute, 5, 9, none⟩
      = .error .TransactionMissing ∧
    DisputeProcessor.process_event (some ⟨9, 5, -3, true⟩) none
        ⟨.dispute, 5, 9, none⟩ = .error .TransactionDisputed ∧
    DisputeProcessor.process_event (some ⟨9, 5, -3, false⟩) none
        ⟨.dispute, 5, 9, none⟩ = .error .WithdrawalNotDisputable ∧
    DisputeProcessor.process_event (some ⟨9, 5, 3, false⟩) none
        ⟨.dispute, 5, 9, none⟩ = .error .ClientMissing ∧
    DisputeProcessor.process_event (some ⟨9, 5, 3, false⟩)
        (some ⟨6, 0, 0, false⟩) ⟨.dispute, 6, 9, none⟩
      = .error .ClientTransactionMismatch ∧
    ResolveProcessor.process_event none none ⟨.resolve, 5, 9, none⟩
      = .error .TransactionMissing ∧
    ResolveProcessor.process_event (some ⟨9, 5, 3, false⟩) none
        ⟨.resolve, 5, 9, none⟩ = .error .TransactionNotDisputed ∧
    ResolveProcessor.process_event (some ⟨9, 5, 3, true⟩) none
        ⟨.resolve, 5, 9, none⟩ = .error .ClientMissing ∧
    ResolveProcessor.process_event (some ⟨9, 5, 3, true⟩)
        (some ⟨6, 0, 0, false⟩) ⟨.resolve, 6, 9, none⟩
      = .error .ClientTransactionMismatch ∧
    ChargebackProcessor.process_event none none ⟨.chargeback, 5, 9, none⟩
      = .error .TransactionMissing ∧
    ChargebackProcessor.process_event (some ⟨9, 5, 3, false⟩) none
        ⟨.chargeback, 5, 9, none⟩ = .error .TransactionNotDisputed ∧
    ChargebackProcessor.process_event (some ⟨9, 5, 3, true⟩) none
        ⟨.chargeback, 5, 9, none⟩ = .error .ClientMissing ∧
    ChargebackProcessor.process_event (some ⟨9, 5, 3, true⟩)
        (some ⟨6, 0, 0, false⟩) ⟨.chargeback, 6, 9, none⟩
      = .error .ClientTransactionMismatch := by
  obtain ⟨p1, p2, p3, p4, p5, p6, p7, p8, p9, p10, p11, p12, p13, p14, p15,
    p16, p17, p18, p19, p20, p21⟩ := c6_first_violated_precondition_wins
  exact ⟨p1 ⟨9, 9, 9, true⟩ (some ⟨5, 0, 0, true⟩) ⟨.deposit, 5, 9, none⟩,
    p2 ⟨5, 0, 0, true⟩ ⟨.deposit, 5, 9, none⟩ rfl,
    p3 none ⟨.deposit, 5, 9, none⟩ rfl rfl,
    p4 ⟨9, 9, 9, true⟩ none ⟨.withdrawal, 5, 9, none⟩,
    p5 none ⟨.withdrawal, 5, 9, none⟩ rfl,
    p6 ⟨.withdrawal, 5, 9, some 3⟩ 3 rfl,
    p7 ⟨5, 0, 0, true⟩ ⟨.withdrawal, 5, 9, some 3⟩ 3 rfl rfl,
    p8 ⟨5, 1, 0, false⟩ ⟨.withdrawal, 5, 9, some 3⟩ 3 rfl rfl (by norm_num),
    p9 none ⟨.dispute, 5, 9, none⟩,
    p10 ⟨9, 5, -3, true⟩ none ⟨.dispute, 5, 9, none⟩ rfl,
    p11 ⟨9, 5, -3, false⟩ none ⟨.dispute, 5, 9, none⟩ rfl (by norm_num),
    p12 ⟨9, 5, 3, false⟩ ⟨.dispute, 5, 9, none⟩ rfl (by norm_num),
    p13 ⟨9, 5, 3, false⟩ ⟨6, 0, 0, false⟩ ⟨.dispute, 6, 9, none⟩ rfl
      (by norm_num) (by decide),
    p14 none ⟨.resolve, 5, 9, none⟩,
    p15 ⟨9, 5, 3, false⟩ none ⟨.resolve, 5, 9, none⟩ rfl,
    p16 ⟨9, 5, 3, true⟩ ⟨.resolve, 5, 9, none⟩ rfl,
    p17 ⟨9, 5, 3, true⟩ ⟨6, 0, 0, false⟩ ⟨.resolve, 6, 9, none⟩ rfl (by decide),
    p18 none ⟨.chargeback, 5, 9, none⟩,
    p19 ⟨9, 5, 3, false⟩ none ⟨.chargeback, 5, 9, none⟩ rfl,
    p20 ⟨9, 5, 3, true⟩ ⟨.chargeback, 5, 9, none⟩ rfl,
    p21 ⟨9, 5, 3, true⟩ ⟨6, 0, 0, false⟩ ⟨.chargeback, 6, 9, none⟩ rfl
      (by decide)⟩

/-- C7: the locked flag is monotonic over reachable stores: once a replay
from the empty store has produced a state in which a client is locked, no
further event sequence of any of the five kinds ever yields a state in
which that client is absent or unlocked. -/
theorem c7_locked_monotonic (evs : List Event) (cid : Nat) (c : Client)
    (h : (run initialStore evs).get_client cid = some c)
    (hl : c.locked = true) (evs' : List Event) :
    ∃ c', (run (run initialStore evs) evs').get_client cid = some c' ∧
      c'.locked = true :=
  locked_run (storeInv_run storeInv_initial evs) h hl evs'

/-- Witness for C7: client 1 is locked by a chargeback and stays locked
after a further deposit attempt and withdrawal attempt. -/
theorem c7_witness :
    (run initialStore [⟨.deposit, 1, 1, some 5⟩, ⟨.dispute, 1, 1, none⟩,
        ⟨.chargeback, 1, 1, none⟩]).get_client 1 = some ⟨1, 0, 0, true⟩ ∧
    (⟨1, 0, 0, true⟩ : Client).locked = true ∧
    ∃ c', (run (run initialStore [⟨.deposit, 1, 1, some 5⟩,
          ⟨.dispute, 1, 1, none⟩, ⟨.chargeback, 1, 1, none⟩])
        [⟨.deposit, 1, 2, some 3⟩, ⟨.withdrawal, 1, 3, some 1⟩]).get_client 1
        = some c' ∧ c'.locked = true := by
  have h : (run initialStore [⟨.deposit, 1, 1, some 5⟩, ⟨.dispute, 1, 1, none⟩,
      ⟨.chargeback, 1, 1, none⟩]).get_client 1 = some ⟨1, 0, 0, true⟩ := by
    simp [run, step, processEvent, DepositProcessor.process_event,
      DisputeProcessor.process_event, ChargebackProcessor.process_event,
      Store.get_client, Store.get_transaction, Store.set_client,
      Store.set_transaction, getA, setA, initialStore, Option.is_some_with,
      Client.default]
  exact ⟨h, rfl, c7_locked_monotonic _ 1 _ h rfl _⟩

/-- C8: once a transaction id has been recorded by a successful deposit or
withdrawal, any later deposit or withdrawal event carrying the same
transaction id is rejected with transaction-already-exists, regardless of
the state of any client, and the rejection causes no store writes. -/
theorem c8_duplicate_tx_id_rejected (s : Store) (ev0 : Event) (cl : Client)
    (tx : Transaction)
    (hk0 : ev0.event_type = .deposit ∨ ev0.event_type = .withdrawal)
    (h0 : processEvent (s.get_transaction ev0.tx) (s.get_client ev0.client) ev0
            = .ok (cl, tx))
    (evs : List Event) (ev : Event) (htx : ev.tx = ev0.tx)
    (hk : ev.event_type = .deposit ∨ ev.event_type = .withdrawal) :
    processEvent ((run (step s ev0) evs).get_transaction ev.tx)
        ((run (step s ev0) evs).get_client ev.client) ev
      = .error .TransactionExists ∧
    step (run (step s ev0) evs) ev = run (step s ev0) evs := by
  have htxid : tx.id = ev0.tx := by
    rcases hk0 with hk0 | hk0
    · simp only [processEvent, hk0] at h0
      obtain ⟨-, -, a, -, -, ht⟩ := dep_ok h0
      rw [ht]
    · simp only [processEvent, hk0] at h0
      obtain ⟨-, a, c0, -, -, -, -, -, ht⟩ := wdl_ok h0
      rw [ht]
  have hrec : ((step s ev0).get_transaction ev0.tx).isSome = true := by
    rw [step_of_ok h0, get_transaction_after_ok, htxid]
    simp
  have hsome : ((run (step s ev0) evs).get_transaction ev.tx).isSome = true := by
    rw [htx]
    exact tx_isSome_run hrec evs
  have herr : processEvent ((run (step s ev0) evs).get_transaction ev.tx)
      ((run (step s ev0) evs).get_client ev.client) ev
      = .error .TransactionExists := by
    rcases hk with hk | hk
    · simp [processEvent, hk, DepositProcessor.process_event, hsome]
    · simp [processEvent, hk, WithdrawalProcessor.process_event, hsome]
  exact ⟨herr, step_of_error herr⟩

/-- Witness for C8: after depositing under transaction id 1, a later
withdrawal reusing id 1 is rejected with transaction-already-exists. -/
theorem c8_witness :
    processEvent (initialStore.get_transaction 1) (initialStore.get_client 1)
        ⟨.deposit, 1, 1, some 5⟩ = .ok (⟨1, 5, 0, false⟩, ⟨1, 1, 5, false⟩) ∧
    processEvent ((run (step initialStore ⟨.deposit, 1, 1, some 5⟩)
          []).get_transaction 1)
        ((run (step initialStore ⟨.deposit, 1, 1, some 5⟩) []).get_client 1)
        ⟨.withdrawal, 1, 1, some 2⟩ = .error .TransactionExists := by
  have h0 : processEvent (initialStore.get_transaction 1)
      (initialStore.get_client 1) ⟨.deposit, 1, 1, some 5⟩
      = .ok (⟨1, 5, 0, false⟩, ⟨1, 1, 5, false⟩) := by
    simp [processEvent, DepositProcessor.process_event, initialStore,
      Store.get_transaction, Store.get_client, getA, Option.is_some_with,
      Client.default]
  exact ⟨h0, (c8_duplicate_tx_id_rejected initialStore ⟨.deposit, 1, 1, some 5⟩
    ⟨1, 5, 0, false⟩ ⟨1, 1, 5, false⟩ (Or.inl rfl) h0 []
    ⟨.withdrawal, 1, 1, some 2⟩ rfl (Or.inr rfl)).1⟩

/-- C9: a transaction's amount, client and id are immutable after creation:
along any replay from the empty store the stored fields never change, and
every successful dispute, resolve or chargeback returns the input
transaction with only the disputed field changed. -/
theorem c9_transaction_fields_immutable :
    (∀ (evs : List Event) (t : Nat) (x : Transaction),
      (run initialStore evs).get_transaction t = some x →
      ∀ evs', ∃ y,
        (run (run initialStore evs) evs').get_transaction t = some y ∧
        y.id = x.id ∧ y.client = x.client ∧ y.amount = x.amount) ∧
    (∀ (t0 : Transaction) (mc : Option Client) (ev : Event) (cl : Client)
        (tx : Transaction),
      DisputeProcessor.process_event (some t0) mc ev = .ok (cl, tx) →
      tx = { t0 with disputed := true }) ∧
    (∀ (t0 : Transaction) (mc : Option Client) (ev : Event) (cl : Client)
        (tx : Transaction),
      ResolveProcessor.process_event (some t0) mc ev = .ok (cl, tx) →
      tx = { t0 with disputed := false }) ∧
    (∀ (t0 : Transaction) (mc : Option Client) (ev : Event) (cl : Client)
        (tx : Transaction),
      ChargebackProcessor.process_event (some t0) mc ev = .ok (cl, tx) →
      tx = { t0 with disputed := false }) := by
  refine ⟨fun evs t x h evs' =>
    tx_fields_run (storeInv_run storeInv_initial evs) h evs', ?_, ?_, ?_⟩
  · intro t0 mc ev cl tx h
    obtain ⟨t0', c0, hmt, hd, ha, hmc, hm, hcl, htx⟩ := disp_ok h
    cases hmt
    exact htx
  · intro t0 mc ev cl tx h
    obtain ⟨t0', c0, hmt, hd, hmc, hm, hcl, htx⟩ := res_ok h
    cases hmt
    exact htx
  · intro t0 mc ev cl tx h
    obtain ⟨t0', c0, hmt, hd, hmc, hm, hcl, htx⟩ := cgb_ok h
    cases hmt
    exact htx

/-- Witness for C9: the deposit-created transaction 1 keeps id 1, client 1
and amount 5 across a dispute, and a concrete dispute changes only the
disputed flag. -/
theorem c9_witness :
    (run initialStore [⟨.deposit, 1, 1, some 5⟩]).get_transaction 1
      = some ⟨1, 1, 5, false⟩ ∧
    (∃ y, (run (run initialStore [⟨.deposit, 1, 1, some 5⟩])
        [⟨.dispute, 1, 1, none⟩]).get_transaction 1 = some y ∧
      y.id = 1 ∧ y.client = 1 ∧ y.amount = 5) ∧
    DisputeProcessor.process_event (some ⟨1, 1, 5, false⟩)
        (some ⟨1, 5, 0, false⟩) ⟨.dispute, 1, 1, none⟩
      = .ok (⟨1, 0, 5, false⟩, ⟨1, 1, 5, true⟩) ∧
    (⟨1, 1, 5, true⟩ : Transaction)
      = { (⟨1, 1, 5, false⟩ : Transaction) with disputed := true } := by
  have h : (run initialStore [⟨.deposit, 1, 1, some 5⟩]).get_transaction 1
      = some ⟨1, 1, 5, false⟩ := by
    simp [run, step, processEvent, DepositProcessor.process_event,
      Store.get_client, Store.get_transaction, Store.set_client,
      Store.set_transaction, getA, setA, initialStore, Option.is_some_with,
      Client.default]
  have hd : DisputeProcessor.process_event (some ⟨1, 1, 5, false⟩)
      (some ⟨1, 5, 0, false⟩) ⟨.dispute, 1, 1, none⟩
      = .ok (⟨1, 0, 5, false⟩, ⟨1, 1, 5, true⟩) := by
    simp [DisputeProcessor.process_event]
  refine ⟨h, ?_, hd, c9_transaction_fields_immutable.2.1 ⟨1, 1, 5, false⟩
    (some ⟨1, 5, 0, false⟩) ⟨.dispute, 1, 1, none⟩ ⟨1, 0, 5, false⟩
    ⟨1, 1, 5, true⟩ hd⟩
  exact c9_transaction_fields_immutable.1 [⟨.deposit, 1, 1, some 5⟩] 1
    ⟨1, 1, 5, false⟩ h [⟨.dispute, 1, 1, none⟩]
